import Mathlib

/-!
Verification of the repository synchronization scheduler and its pluggable
sync-strategy layer, as a shallow embedding of the Go source.

Part I embeds the artifact-derived sync strategy (`MavenArtifactSyncer` in
the `server` package): `IsCloneable`, `CloneCommand`/`commitJar`, `Fetch`
and `RemoteShowCommand`.  External effects (the coursier registry fetch,
`unzip`, file writes, the git subprocesses) are modelled by oracles in an
environment record, and the destination repository is an explicit state
holding a work tree and the published commit history.

Part II embeds the Scheduler Core / Job Store state machine and the
backoff policy (these parts of the repository are not in the sampled
source; they are modelled from the spec), the Purge Worker counters, and
the repo-updater metrics gauges from the `database`/`repos` source file.
-/

/-- A request context (only carried along; the strategy functions never
inspect it, mirroring `context.Context` being passed to `exec.CommandContext`). -/
structure Ctx where
  cancelled : Bool := false
deriving DecidableEq

/-- Embeds `vcs.URL`: only the `Path` component is used by the Maven syncer. -/
structure VcsURL where
  path : String
deriving DecidableEq

/-- Embeds `schema.MavenConnection` (configuration passed to coursier). -/
structure MavenConnection where
  repositories : List String := []
deriving DecidableEq

/-- The `MavenArtifactSyncer` struct: carries its configuration. -/
structure MavenArtifactSyncer where
  Config : MavenConnection
deriving DecidableEq

/-- A git commit as observable by readers of the destination repository:
a message and a snapshot of the committed tree (file name, file content). -/
structure Commit where
  message : String
  tree : List (String × String)
deriving DecidableEq

/-- The destination repository state: the work tree (files on disk in the
clone directory) and the append-only commit history readers observe. -/
structure Dest where
  workTree : List (String × String) := []
  commits : List Commit := []
deriving DecidableEq

/-- Oracles for the external effects performed by the syncer:
`fetchSources` models `coursier.FetchSources` (registry lookup of
sources.jar paths, may fail), `unzip` models the `unzip` subprocess
(jar path to unpacked files, `none` = failure), and the booleans model
success of `os.Create`/`File.Write`/`git init`/`git add`/`git commit`. -/
structure Env where
  fetchSources : MavenConnection → String → Except String (List String)
  unzip : String → Option (List (String × String))
  createOk : Bool := true
  writeOk : Bool := true
  initOk : Bool := true
  addOk : Bool := true
  commitOk : Bool := true

/-- The function `reposource.DecomposeMavenPath` is not in the sampled source; the
syncer only pipes the URL path through it, so it is kept abstract as a
parameter of type `String → String` wherever needed. -/
def DecomposedDependency (decompose : String → String) (remoteURL : VcsURL) : String :=
  decompose remoteURL.path

/-- The `lsifJavaJson` struct written to `lsif-java.json`. -/
structure LsifJavaJson where
  Kind : String
  Jvm : String
  Dependencies : List String
deriving DecidableEq

/-- JSON string escaping as performed by `json.Marshal` on the characters
occurring in Maven coordinates (quote and backslash). -/
def jsonEscapeChar (c : Char) : String :=
  if c = '"' then "\\\"" else if c = '\\' then "\\\\" else String.singleton c

/-- A JSON string literal. -/
def jsonString (s : String) : String :=
  "\"" ++ String.join (s.toList.map jsonEscapeChar) ++ "\""

/-- A JSON array of string literals. -/
def jsonStringArray (xs : List String) : String :=
  "[" ++ String.intercalate "," (xs.map jsonString) ++ "]"

/-- Embeds `json.Marshal` of `lsifJavaJson` (fields serialize in declaration
order with the tags `kind`, `jvm`, `dependencies`). -/
def encodeLsifJavaJson (j : LsifJavaJson) : String :=
  "\x7b\"kind\":" ++ jsonString j.Kind ++ ",\"jvm\":" ++ jsonString j.Jvm ++
    ",\"dependencies\":" ++ jsonStringArray j.Dependencies ++ "\x7d"

/-- The metadata value `commitJar` marshals for a dependency coordinate:
`lsifJavaJson{Kind: "maven", Jvm: "8", Dependencies: []string{dependency}}`. -/
def lsifJavaJsonFor (dependency : String) : LsifJavaJson :=
  ⟨"maven", "8", [dependency]⟩

/-- Embeds `MavenArtifactSyncer.Type`. -/
def MavenArtifactSyncer.Type (_s : MavenArtifactSyncer) : String :=
  "maven"

/-- Embeds `MavenArtifactSyncer.IsCloneable`: decomposes the URL path into a
dependency, fetches the sources list from the registry, and reports an
error when the fetch fails or the list is empty.  It performs no local
mutation, so the destination state is returned unchanged. -/
def MavenArtifactSyncer.IsCloneable (s : MavenArtifactSyncer) (env : Env)
    (decompose : String → String) (_ctx : Ctx) (remoteURL : VcsURL) (st : Dest) :
    Option String × Dest :=
  let dependency := decompose remoteURL.path
  match env.fetchSources s.Config dependency with
  | .error e => (some e, st)
  | .ok sources =>
      if sources.length = 0 then
        (some ("no sources.jar for dependency " ++ dependency), st)
      else
        (none, st)

/-- Embeds `MavenArtifactSyncer.Fetch`: does nothing for Maven packages because
they are immutable and cannot be updated after publishing. -/
def MavenArtifactSyncer.Fetch (_s : MavenArtifactSyncer) (_ctx : Ctx)
    (_remoteURL : VcsURL) (st : Dest) : Option String × Dest :=
  (none, st)

/-- Embeds `MavenArtifactSyncer.RemoteShowCommand`: returns the constant command
`git remote show ./` and a nil error; it consults no oracle and touches no
state. -/
def MavenArtifactSyncer.RemoteShowCommand (_s : MavenArtifactSyncer) (_ctx : Ctx)
    (_remoteURL : VcsURL) (st : Dest) : (List String × Option String) × Dest :=
  ((["git", "remote", "show", "./"], none), st)

/-- Embeds `MavenArtifactSyncer.commitJar`: unzips the jar into the working
directory, writes `lsif-java.json` with the marshalled metadata, then
`git add .` and `git commit -m dependency`.  Each step can fail (per the
environment oracles); a failure returns the error and whatever partial
work-tree state the completed steps produced, with the commit history
untouched — only full success appends the single synthetic commit. -/
def MavenArtifactSyncer.commitJar (_s : MavenArtifactSyncer) (env : Env)
    (dependency path : String) (st : Dest) : Option String × Dest :=
  match env.unzip path with
  | none => (some "failed to unzip", st)
  | some files =>
      let st1 : Dest := { st with workTree := st.workTree ++ files }
      if env.createOk = false then
        (some "failed to create lsif-java.json", st1)
      else
        let content := if env.writeOk then encodeLsifJavaJson (lsifJavaJsonFor dependency) else ""
        let st2 : Dest := { st1 with workTree := st1.workTree ++ [("lsif-java.json", content)] }
        if env.writeOk = false then
          (some "failed to write lsif-java.json", st2)
        else if env.addOk = false then
          (some "failed to git add", st2)
        else if env.commitOk = false then
          (some "failed to git commit", st2)
        else
          (none, { st2 with
                     commits := st2.commits ++ [⟨dependency, st2.workTree⟩] })

/-- Embeds `MavenArtifactSyncer.CloneCommand`: decomposes the dependency, fetches
the sources list (failing or empty list is an error before any local
mutation), runs `git init` in the working directory, and delegates to
`commitJar` on the first resolved sources path. -/
def MavenArtifactSyncer.CloneCommand (s : MavenArtifactSyncer) (env : Env)
    (decompose : String → String) (_ctx : Ctx) (remoteURL : VcsURL) (st : Dest) :
    Option String × Dest :=
  let dependency := decompose remoteURL.path
  match env.fetchSources s.Config dependency with
  | .error e => (some e, st)
  | .ok paths =>
      match paths with
      | [] => (some ("no sources.jar for dependency " ++ dependency), st)
      | path :: _ =>
          if env.initOk = false then
            (some "failed to init git repository", st)
          else
            s.commitJar env dependency path st

/-- Modelled from the spec: the clone harness around `CloneCommand` is not
in the sampled source.  Per §4.1, `Materialize` is materialize-then-publish:
the clone runs in a fresh temporary destination, and only on success does
the result replace the reader-visible published history; on any failure the
published history is left unchanged. -/
def Materialize (s : MavenArtifactSyncer) (env : Env)
    (decompose : String → String) (ctx : Ctx) (remoteURL : VcsURL)
    (published : List Commit) : Option String × List Commit :=
  match s.CloneCommand env decompose ctx remoteURL ⟨[], []⟩ with
  | (some e, _) => (some e, published)
  | (none, tmp) => (none, tmp.commits)

/-- C2: For every context, remote URL and destination state, the
artifact-derived strategy's incremental update (`MavenArtifactSyncer.Fetch`)
returns nil and leaves the destination untouched: updating an
already-materialized immutable-artifact repository is a no-op. -/
theorem maven_fetch_is_noop (s : MavenArtifactSyncer) (ctx : Ctx)
    (remoteURL : VcsURL) (st : Dest) :
    s.Fetch ctx remoteURL st = (none, st) := rfl

/-- C8: `MavenArtifactSyncer.RemoteShowCommand` builds its metadata command
(`git remote show ./`) without consulting the registry oracle or mutating
the destination, and returns a nil error for every context and remote URL. -/
theorem maven_remote_show_no_fetch (s : MavenArtifactSyncer) (ctx : Ctx)
    (remoteURL : VcsURL) (st : Dest) :
    s.RemoteShowCommand ctx remoteURL st = ((["git", "remote", "show", "./"], none), st) := rfl

/-- C5: `MavenArtifactSyncer.IsCloneable` leaves the destination state
unchanged, and returns nil exactly when the registry fetch for the
decomposed dependency succeeds with a non-empty sources list (it returns a
non-nil error when the fetch fails or the resolved list is empty). -/
theorem maven_is_cloneable_iff_sources (s : MavenArtifactSyncer) (env : Env)
    (decompose : String → String) (ctx : Ctx) (remoteURL : VcsURL) (st : Dest) :
    (s.IsCloneable env decompose ctx remoteURL st).2 = st ∧
      ((s.IsCloneable env decompose ctx remoteURL st).1 = none ↔
        ∃ sources, env.fetchSources s.Config (decompose remoteURL.path) = .ok sources ∧
          sources ≠ []) := by
  cases h : env.fetchSources s.Config (decompose remoteURL.path) with
  | error e =>
      simp [MavenArtifactSyncer.IsCloneable, h]
  | ok sources =>
      cases sources with
      | nil => simp [MavenArtifactSyncer.IsCloneable, h]
      | cons a l => simp [MavenArtifactSyncer.IsCloneable, h]

/-- Helper: every failing run of `commitJar` leaves the commit history of
the destination exactly as it was (only work-tree files may have been
touched). -/
theorem commitJar_error_commits (s : MavenArtifactSyncer) (env : Env)
    (dependency path : String) (st : Dest) (e : String)
    (h : (s.commitJar env dependency path st).1 = some e) :
    (s.commitJar env dependency path st).2.commits = st.commits := by
  cases hu : env.unzip path with
  | none => simp [MavenArtifactSyncer.commitJar, hu]
  | some files =>
      cases hcreate : env.createOk with
      | false => simp [MavenArtifactSyncer.commitJar, hu, hcreate]
      | true =>
          cases hwrite : env.writeOk with
          | false => simp [MavenArtifactSyncer.commitJar, hu, hcreate, hwrite]
          | true =>
              cases hadd : env.addOk with
              | false => simp [MavenArtifactSyncer.commitJar, hu, hcreate, hwrite, hadd]
              | true =>
                  cases hcommit : env.commitOk with
                  | false => simp [MavenArtifactSyncer.commitJar, hu, hcreate, hwrite, hadd, hcommit]
                  | true =>
                      simp [MavenArtifactSyncer.commitJar, hu, hcreate, hwrite, hadd, hcommit] at h

/-- Helper: every failing run of `CloneCommand` leaves the commit history
of the destination exactly as it was. -/
theorem cloneCommand_error_commits (s : MavenArtifactSyncer) (env : Env)
    (decompose : String → String) (ctx : Ctx) (remoteURL : VcsURL) (st : Dest) (e : String)
    (h : (s.CloneCommand env decompose ctx remoteURL st).1 = some e) :
    (s.CloneCommand env decompose ctx remoteURL st).2.commits = st.commits := by
  cases hf : env.fetchSources s.Config (decompose remoteURL.path) with
  | error e' => simp [MavenArtifactSyncer.CloneCommand, hf]
  | ok paths =>
      cases paths with
      | nil => simp [MavenArtifactSyncer.CloneCommand, hf]
      | cons p rest =>
          cases hinit : env.initOk with
          | false => simp [MavenArtifactSyncer.CloneCommand, hf, hinit]
          | true =>
              have h' : (s.commitJar env (decompose remoteURL.path) p st).1 = some e := by
                simpa [MavenArtifactSyncer.CloneCommand, hf, hinit] using h
              simpa [MavenArtifactSyncer.CloneCommand, hf, hinit] using
                commitJar_error_commits s env (decompose remoteURL.path) p st e h'

/-- C4: if materialization of an artifact-derived repository fails at any
step (registry fetch, empty sources list, git init, unzip, metadata write,
git add, or git commit), no partially-committed state is visible to
readers: `commitJar` and `CloneCommand` leave the commit history unchanged
on every failure, and the spec-modelled materialize-then-publish wrapper
leaves the published history exactly as it was before the call. -/
theorem maven_materialize_failure_atomic (s : MavenArtifactSyncer) (env : Env)
    (decompose : String → String) (ctx : Ctx) (remoteURL : VcsURL) :
    (∀ st dependency path e, (s.commitJar env dependency path st).1 = some e →
        (s.commitJar env dependency path st).2.commits = st.commits) ∧
    (∀ st e, (s.CloneCommand env decompose ctx remoteURL st).1 = some e →
        (s.CloneCommand env decompose ctx remoteURL st).2.commits = st.commits) ∧
    (∀ published e, (Materialize s env decompose ctx remoteURL published).1 = some e →
        (Materialize s env decompose ctx remoteURL published).2 = published) := by
  refine ⟨fun st dependency path e h => commitJar_error_commits s env dependency path st e h,
          fun st e h => cloneCommand_error_commits s env decompose ctx remoteURL st e h,
          fun published e h => ?_⟩
  unfold Materialize at h ⊢
  cases hc : s.CloneCommand env decompose ctx remoteURL ⟨[], []⟩ with
  | mk err tmp =>
      cases err with
      | none => rw [hc] at h; simp at h
      | some e' => rfl

/-- C6: a successful `commitJar` appends exactly one synthetic commit
whose message is the dependency coordinate and whose tree is the unpacked
artifact files plus the metadata file `lsif-java.json` containing the JSON
encoding of `{kind: "maven", jvm: "8", dependencies: [dependency]}`. -/
theorem maven_commit_jar_single_commit (s : MavenArtifactSyncer) (env : Env)
    (dependency path : String) (st : Dest) (files : List (String × String))
    (hu : env.unzip path = some files)
    (hs : (s.commitJar env dependency path st).1 = none) :
    (s.commitJar env dependency path st).2.commits =
      st.commits ++ [⟨dependency,
        st.workTree ++ files ++
          [("lsif-java.json", encodeLsifJavaJson ⟨"maven", "8", [dependency]⟩)]⟩] ∧
    (s.commitJar env dependency path st).2.workTree =
      st.workTree ++ files ++
        [("lsif-java.json", encodeLsifJavaJson ⟨"maven", "8", [dependency]⟩)] := by
  cases hcreate : env.createOk with
  | false => simp [MavenArtifactSyncer.commitJar, hu, hcreate] at hs
  | true =>
      cases hwrite : env.writeOk with
      | false => simp [MavenArtifactSyncer.commitJar, hu, hcreate, hwrite] at hs
      | true =>
          cases hadd : env.addOk with
          | false => simp [MavenArtifactSyncer.commitJar, hu, hcreate, hwrite, hadd] at hs
          | true =>
              cases hcommit : env.commitOk with
              | false =>
                  simp [MavenArtifactSyncer.commitJar, hu, hcreate, hwrite, hadd, hcommit] at hs
              | true =>
                  constructor <;>
                    simp [MavenArtifactSyncer.commitJar, hu, hcreate, hwrite, hadd, hcommit,
                      lsifJavaJsonFor]

/-- C3: materializing the same artifact coordinate twice (without
intervening state corruption, i.e. with the same deterministic environment)
yields bit-identical published output: if the first `Materialize` succeeds,
re-invoking it on the already-materialized destination succeeds and
re-derives exactly the same published history. -/
theorem maven_materialize_idempotent (s : MavenArtifactSyncer) (env : Env)
    (decompose : String → String) (ctx : Ctx) (remoteURL : VcsURL)
    (published : List Commit)
    (h : (Materialize s env decompose ctx remoteURL published).1 = none) :
    Materialize s env decompose ctx remoteURL
        (Materialize s env decompose ctx remoteURL published).2 =
      (none, (Materialize s env decompose ctx remoteURL published).2) := by
  unfold Materialize at h ⊢
  cases hc : s.CloneCommand env decompose ctx remoteURL ⟨[], []⟩ with
  | mk err tmp =>
      cases err with
      | none => simp
      | some e => rw [hc] at h; simp at h

/-- A concrete all-succeeding environment used by the witnesses: the
registry resolves one sources jar for every dependency and unzip yields a
fixed file list. -/
def testEnv : Env :=
  { fetchSources := fun _ dep => .ok [dep ++ "-sources.jar"],
    unzip := fun _ => some [("Main.java", "class Main")] }

/-- Witness for C4 at a concrete failing input (git commit fails). -/
theorem maven_materialize_failure_atomic_witness :
    ((⟨⟨[]⟩⟩ : MavenArtifactSyncer).commitJar { testEnv with commitOk := false }
        "g:a:1.0" "p" ⟨[], []⟩).2.commits = (⟨[], []⟩ : Dest).commits ∧
    ((⟨⟨[]⟩⟩ : MavenArtifactSyncer).CloneCommand { testEnv with commitOk := false }
        id ⟨false⟩ ⟨"g:a:1.0"⟩ ⟨[], []⟩).2.commits = (⟨[], []⟩ : Dest).commits ∧
    (Materialize ⟨⟨[]⟩⟩ { testEnv with commitOk := false } id ⟨false⟩ ⟨"g:a:1.0"⟩
        [⟨"old", []⟩]).2 = [⟨"old", []⟩] :=
  ⟨(maven_materialize_failure_atomic ⟨⟨[]⟩⟩ { testEnv with commitOk := false }
      id ⟨false⟩ ⟨"g:a:1.0"⟩).1 ⟨[], []⟩ "g:a:1.0" "p" "failed to git commit" rfl,
   (maven_materialize_failure_atomic ⟨⟨[]⟩⟩ { testEnv with commitOk := false }
      id ⟨false⟩ ⟨"g:a:1.0"⟩).2.1 ⟨[], []⟩ "failed to git commit" rfl,
   (maven_materialize_failure_atomic ⟨⟨[]⟩⟩ { testEnv with commitOk := false }
      id ⟨false⟩ ⟨"g:a:1.0"⟩).2.2 [⟨"old", []⟩] "failed to git commit" rfl⟩

/-- Witness for C6 at a concrete successful input. -/
theorem maven_commit_jar_single_commit_witness :
    ((⟨⟨[]⟩⟩ : MavenArtifactSyncer).commitJar testEnv "g:a:1.0" "p" ⟨[], []⟩).2.commits =
      [⟨"g:a:1.0", [("Main.java", "class Main"),
        ("lsif-java.json", encodeLsifJavaJson ⟨"maven", "8", ["g:a:1.0"]⟩)]⟩] :=
  (maven_commit_jar_single_commit ⟨⟨[]⟩⟩ testEnv "g:a:1.0" "p" ⟨[], []⟩
    [("Main.java", "class Main")] rfl rfl).1

/-- Witness for C3 at a concrete successful input. -/
theorem maven_materialize_idempotent_witness :
    Materialize ⟨⟨[]⟩⟩ testEnv id ⟨false⟩ ⟨"g:a:1.0"⟩
        (Materialize ⟨⟨[]⟩⟩ testEnv id ⟨false⟩ ⟨"g:a:1.0"⟩ []).2 =
      (none, (Materialize ⟨⟨[]⟩⟩ testEnv id ⟨false⟩ ⟨"g:a:1.0"⟩ []).2) :=
  maven_materialize_idempotent ⟨⟨[]⟩⟩ testEnv id ⟨false⟩ ⟨"g:a:1.0"⟩ [] rfl

/-! ## Part II: Scheduler Core, Job Store and backoff policy.

Modelled from the spec: the Scheduler Core, Job Store and backoff code of
this repository is not in the sampled source (only its observability
counters are); the state machine below follows §3, §4.2, §4.3 and §8 of
the spec. -/

/-- Trigger kind of a sync attempt: deadline-driven or user-driven. -/
inductive Trigger
  | auto
  | manual
deriving DecidableEq

/-- Sync Job states: `queued → running → (completed | errored)`. -/
inductive SyncJobState
  | queued
  | running
  | completed
  | errored
deriving DecidableEq

/-- Terminal job states. -/
def SyncJobState.isTerminal : SyncJobState → Bool
  | .completed => true
  | .errored => true
  | _ => false

/-- Modelled from the spec: one Sync Job record per synchronization
attempt (target repository, state, trigger kind). -/
structure SyncJob where
  repoId : Nat
  state : SyncJobState
  trigger : Trigger
deriving DecidableEq

/-- Modelled from the spec: an Update Queue Entry
(repository ID, due-time, priority class). -/
structure QueueEntry where
  repoId : Nat
  due : Nat
  priority : Trigger
deriving DecidableEq

/-- Modelled from the spec: the Scheduler Core's owned state — clock,
known-repository set, live update queue, append-only Sync Job history
(job IDs are indices into the history), and per-repository
consecutive-failure counters. -/
structure SchedState where
  now : Nat := 0
  known : List Nat := []
  queue : List QueueEntry := []
  jobs : List SyncJob := []
  failures : List (Nat × Nat) := []
deriving DecidableEq

/-- A job counts as in-flight for repository `r` when it targets `r` and
is in a non-terminal state. -/
def inflightFor (r : Nat) (j : SyncJob) : Bool :=
  j.repoId == r && !j.state.isTerminal

/-- Number of non-terminal jobs for repository `r` in a job history. -/
def inflightCount (r : Nat) (jobs : List SyncJob) : Nat :=
  jobs.countP (inflightFor r)

/-- The error a losing `Begin` caller receives. -/
inductive BeginError
  | alreadyRunning
deriving DecidableEq

/-- Modelled from the spec: Job Store `Begin(repoID, trigger)` — appends a
running job and returns its ID, unless the repository already has a
non-terminal job, in which case the call is rejected with `AlreadyRunning`
(atomic with respect to the at-most-one-in-flight invariant: the check and
the append are one step of the serialized state machine). -/
def beginJob (r : Nat) (t : Trigger) (st : SchedState) :
    Except BeginError (Nat × SchedState) :=
  if st.jobs.any (inflightFor r) then
    .error .alreadyRunning
  else
    .ok (st.jobs.length, { st with jobs := st.jobs ++ [⟨r, .running, t⟩] })

/-- Modelled from the spec: Job Store `Complete(jobID, error?)` — marks a
non-terminal job terminal; idempotent per job ID (a duplicate completion
report, or an unknown ID, is ignored). -/
def completeJob (jobId : Nat) (ok : Bool) (st : SchedState) : SchedState :=
  match st.jobs[jobId]? with
  | none => st
  | some j =>
      if j.state.isTerminal then st
      else
        { st with
            jobs := st.jobs.set jobId
              { j with state := if ok then .completed else .errored } }

/-- Re-enqueuing replaces rather than duplicates an existing live entry
for the same repository. -/
def enqueueEntry (e : QueueEntry) (q : List QueueEntry) : List QueueEntry :=
  e :: q.filter (fun x => x.repoId != e.repoId)

/-- Modelled from the spec: `Register(repo)` — inserts the known-set
entry; if new, enqueues immediately with `auto` priority and zero due-time. -/
def register (r : Nat) (st : SchedState) : SchedState :=
  if st.known.contains r then st
  else
    { st with
        known := st.known ++ [r],
        queue := enqueueEntry ⟨r, 0, .auto⟩ st.queue }

/-- Modelled from the spec: `RequestImmediateSync(repoID)` — enqueues with
`manual` priority and due-time now, superseding any existing entry for the
same repository. -/
def requestImmediateSync (r : Nat) (st : SchedState) : SchedState :=
  { st with queue := enqueueEntry ⟨r, st.now, .manual⟩ st.queue }

/-- Queue ordering: `manual` before `auto`; within a class earliest
due-time first; ties broken by repository ID for determinism. -/
def entryBefore (a b : QueueEntry) : Bool :=
  match a.priority, b.priority with
  | .manual, .auto => true
  | .auto, .manual => false
  | _, _ =>
      if a.due < b.due then true
      else if b.due < a.due then false
      else a.repoId ≤ b.repoId

/-- Best entry of a queue fragment under `entryBefore`. -/
def selectBest : List QueueEntry → Option QueueEntry
  | [] => none
  | e :: rest =>
      match selectBest rest with
      | none => some e
      | some b => if entryBefore e b then some e else some b

/-- Modelled from the spec: `Tick()` — pops the highest-priority due
entry; if the repository has no non-terminal job, begins one; otherwise
defers (at-most-one-in-flight) and reschedules a short recheck. -/
def tick (st : SchedState) : SchedState :=
  match selectBest (st.queue.filter (fun e => decide (e.due ≤ st.now))) with
  | none => st
  | some e =>
      let st1 := { st with queue := st.queue.filter (fun x => x.repoId != e.repoId) }
      match beginJob e.repoId e.priority st1 with
      | .ok (_, st2) => st2
      | .error _ =>
          { st1 with queue := enqueueEntry ⟨e.repoId, st.now + 1, e.priority⟩ st1.queue }

/-- Consecutive-failure counter of a repository (0 when never recorded). -/
def lookupFailures (r : Nat) : List (Nat × Nat) → Nat
  | [] => 0
  | (a, n) :: rest => if a = r then n else lookupFailures r rest

/-- Overwrite a repository's consecutive-failure counter. -/
def setFailures (r n : Nat) (st : SchedState) : SchedState :=
  { st with failures := (r, n) :: st.failures.filter (fun p => p.1 != r) }

/-- Modelled from the spec: the backoff policy — exponential in the
consecutive-failure count, starting from the steady-state refresh
interval and capped at a maximum interval. -/
def backoffDelta (steadyInterval maxInterval failures : Nat) : Nat :=
  min (steadyInterval * 2 ^ failures) maxInterval

/-- Modelled from the spec: `RecordOutcome(job)` — completes the job; on
success resets the failure counter to zero and re-enqueues at the
steady-state interval, on failure increments the counter and re-enqueues
at the capped exponential backoff delta. -/
def recordOutcome (steadyInterval maxInterval : Nat) (jobId : Nat) (ok : Bool)
    (st : SchedState) : SchedState :=
  match st.jobs[jobId]? with
  | none => st
  | some j =>
      let st1 := completeJob jobId ok st
      let n := if ok then 0 else lookupFailures j.repoId st.failures + 1
      let st2 := setFailures j.repoId n st1
      { st2 with
          queue := enqueueEntry
            ⟨j.repoId, st.now + backoffDelta steadyInterval maxInterval n, .auto⟩
            st2.queue }

/-- Modelled from the spec: `Deregister(repoID)` — removes the known-set
entry and cancels any live queue entry; materialized data and job history
are left to the Purge Worker. -/
def deregister (r : Nat) (st : SchedState) : SchedState :=
  { st with
      known := st.known.filter (fun x => x != r),
      queue := st.queue.filter (fun e => e.repoId != r) }

/-- The operations of the Scheduler Core and the Job Store, plus clock
advance. -/
inductive SchedOp
  | register (r : Nat)
  | requestImmediateSync (r : Nat)
  | tick
  | recordOutcome (jobId : Nat) (ok : Bool)
  | deregister (r : Nat)
  | beginJob (r : Nat) (t : Trigger)
  | complete (jobId : Nat) (ok : Bool)
  | advance (d : Nat)

/-- One serialized step of the scheduler state machine (a rejected
`Begin` leaves the state unchanged). -/
def applyOp (steadyInterval maxInterval : Nat) (st : SchedState) : SchedOp → SchedState
  | .register r => register r st
  | .requestImmediateSync r => requestImmediateSync r st
  | .tick => tick st
  | .recordOutcome jobId ok => recordOutcome steadyInterval maxInterval jobId ok st
  | .deregister r => deregister r st
  | .beginJob r t =>
      match beginJob r t st with
      | .ok (_, st') => st'
      | .error _ => st
  | .complete jobId ok => completeJob jobId ok st
  | .advance d => { st with now := st.now + d }

/-- The initial scheduler state: nothing known, nothing queued, no jobs. -/
def initSchedState : SchedState := {}

/-- Run a sequence of scheduler operations from the initial state. -/
def runOps (steadyInterval maxInterval : Nat) (ops : List SchedOp) : SchedState :=
  ops.foldl (applyOp steadyInterval maxInterval) initSchedState

/-- The at-most-one-in-flight invariant: every repository has at most one
non-terminal Sync Job in the history. -/
def atMostOneInflight (jobs : List SyncJob) : Prop :=
  ∀ r, inflightCount r jobs ≤ 1

/-- Helper: a predicate counts zero elements of a list on which `any`
fails. -/
theorem countP_eq_zero_of_any_false {α : Type} (p : α → Bool) (l : List α)
    (h : l.any p = false) : l.countP p = 0 := by
  rw [List.countP_eq_zero]
  intro a ha
  rw [List.any_eq_false] at h
  exact h a ha

/-- Helper: overwriting a list position with an element the predicate
rejects never increases the count. -/
theorem countP_set_le {α : Type} (p : α → Bool) :
    ∀ (l : List α) (i : Nat) (x : α), p x = false →
      (l.set i x).countP p ≤ l.countP p
  | [], _, _, _ => le_refl _
  | a :: l, 0, x, h => by
      simp [List.countP_cons, h]
  | a :: l, i + 1, x, h => by
      simp only [List.set, List.countP_cons]
      exact Nat.add_le_add_right (countP_set_le p l i x h) _

/-- Helper: a successful `Begin` preserves the at-most-one-in-flight
invariant — the appended job is the only in-flight job of its repository. -/
theorem beginJob_ok_inflight (r : Nat) (t : Trigger) (st st' : SchedState) (jid : Nat)
    (hinv : atMostOneInflight st.jobs)
    (h : beginJob r t st = .ok (jid, st')) : atMostOneInflight st'.jobs := by
  unfold beginJob at h
  by_cases hany : st.jobs.any (inflightFor r)
  · rw [if_pos hany] at h
    exact absurd h (by simp)
  · rw [if_neg hany] at h
    have hjobs : st'.jobs = st.jobs ++ [⟨r, .running, t⟩] := by
      have := congrArg (fun x => match x with
        | Except.ok (_, s) => s.jobs
        | Except.error _ => []) h
      simpa using this.symm
    intro r'
    rw [inflightCount, hjobs, List.countP_append]
    by_cases hr : r = r'
    · subst hr
      have h0 : st.jobs.countP (inflightFor r) = 0 :=
        countP_eq_zero_of_any_false _ _ (by simpa using hany)
      simp [h0, List.countP_cons, inflightFor, SyncJobState.isTerminal]
    · have h1 : (inflightFor r' (⟨r, .running, t⟩ : SyncJob)) = false := by
        simp [inflightFor, hr]
      simp [List.countP_cons, h1]
      exact hinv r'

/-- Helper: completing a job (marking it terminal) preserves the
invariant. -/
theorem completeJob_inflight (jobId : Nat) (ok : Bool) (st : SchedState)
    (hinv : atMostOneInflight st.jobs) :
    atMostOneInflight (completeJob jobId ok st).jobs := by
  unfold completeJob
  cases h : st.jobs[jobId]? with
  | none => exact hinv
  | some j =>
      by_cases ht : j.state.isTerminal
      · simp only [ht, if_true]
        exact hinv
      · simp only [ht, Bool.false_eq_true, if_false]
        intro r
        refine le_trans (countP_set_le _ _ _ _ ?_) (hinv r)
        cases ok <;> simp [inflightFor, SyncJobState.isTerminal]

/-- Helper: `recordOutcome` changes the job history exactly as
`completeJob` does. -/
theorem recordOutcome_jobs (steadyInterval maxInterval jobId : Nat) (ok : Bool)
    (st : SchedState) :
    (recordOutcome steadyInterval maxInterval jobId ok st).jobs =
      (completeJob jobId ok st).jobs := by
  unfold recordOutcome
  cases h : st.jobs[jobId]? with
  | none =>
      unfold completeJob
      rw [h]
  | some j => rfl

/-- Helper: `tick` preserves the invariant (it only ever starts a job
through `Begin`). -/
theorem tick_inflight (st : SchedState) (hinv : atMostOneInflight st.jobs) :
    atMostOneInflight (tick st).jobs := by
  unfold tick
  cases selectBest (st.queue.filter (fun e => decide (e.due ≤ st.now))) with
  | none => exact hinv
  | some e =>
      simp only
      cases hb : beginJob e.repoId e.priority
          { st with queue := st.queue.filter (fun x => x.repoId != e.repoId) } with
      | ok p =>
          cases p with
          | mk jid st2 =>
              exact beginJob_ok_inflight e.repoId e.priority
                { st with queue := st.queue.filter (fun x => x.repoId != e.repoId) }
                st2 jid hinv hb
      | error _ => exact hinv

/-- Helper: every serialized scheduler step preserves the invariant. -/
theorem applyOp_inflight (steadyInterval maxInterval : Nat) (st : SchedState)
    (op : SchedOp) (hinv : atMostOneInflight st.jobs) :
    atMostOneInflight (applyOp steadyInterval maxInterval st op).jobs := by
  cases op with
  | register r =>
      show atMostOneInflight (register r st).jobs
      unfold register
      split <;> exact hinv
  | requestImmediateSync r => exact hinv
  | tick => exact tick_inflight st hinv
  | recordOutcome jobId ok =>
      show atMostOneInflight (recordOutcome steadyInterval maxInterval jobId ok st).jobs
      rw [recordOutcome_jobs]
      exact completeJob_inflight jobId ok st hinv
  | deregister r => exact hinv
  | beginJob r t =>
      show atMostOneInflight (match beginJob r t st with
        | .ok (_, st') => st'
        | .error _ => st).jobs
      cases hb : beginJob r t st with
      | ok p =>
          cases p with
          | mk jid st' => exact beginJob_ok_inflight r t st st' jid hinv hb
      | error _ => exact hinv
  | complete jobId ok => exact completeJob_inflight jobId ok st hinv
  | advance d => exact hinv

/-- Helper: the invariant holds along any run from any invariant-satisfying
start state. -/
theorem foldl_inflight (steadyInterval maxInterval : Nat) :
    ∀ (ops : List SchedOp) (st : SchedState), atMostOneInflight st.jobs →
      atMostOneInflight (ops.foldl (applyOp steadyInterval maxInterval) st).jobs
  | [], st, hinv => hinv
  | op :: ops, st, hinv =>
      foldl_inflight steadyInterval maxInterval ops _
        (applyOp_inflight steadyInterval maxInterval st op hinv)

/-- Helper: after a successful `Begin` for a repository, a second `Begin`
for the same repository is rejected with `AlreadyRunning`. -/
theorem beginJob_then_alreadyRunning (r : Nat) (t t' : Trigger)
    (st st' : SchedState) (jid : Nat)
    (h : beginJob r t st = .ok (jid, st')) :
    beginJob r t' st' = .error .alreadyRunning := by
  unfold beginJob at h
  by_cases hany : st.jobs.any (inflightFor r)
  · rw [if_pos hany] at h
    exact absurd h (by simp)
  · rw [if_neg hany] at h
    have hjobs : st'.jobs = st.jobs ++ [⟨r, .running, t⟩] := by
      have := congrArg (fun x => match x with
        | Except.ok (_, s) => s.jobs
        | Except.error _ => []) h
      simpa using this.symm
    unfold beginJob
    rw [if_pos]
    rw [hjobs, List.any_append]
    simp [inflightFor, SyncJobState.isTerminal]

/-- C1: in every state reachable by any sequence of Scheduler Core
operations and Job Store Begin/Complete calls, each repository has at most
one Sync Job in a non-terminal state; and when two `Begin` calls race for
the same repository, exactly one succeeds — the second is rejected with
`AlreadyRunning`. -/
theorem scheduler_at_most_one_inflight (steadyInterval maxInterval : Nat)
    (ops : List SchedOp) :
    atMostOneInflight (runOps steadyInterval maxInterval ops).jobs ∧
    ∀ r t t' jid st',
      beginJob r t (runOps steadyInterval maxInterval ops) = .ok (jid, st') →
        beginJob r t' st' = .error .alreadyRunning := by
  constructor
  · exact foldl_inflight steadyInterval maxInterval ops initSchedState (fun r => by
      simp [inflightCount, initSchedState])
  · intro r t t' jid st' h
    exact beginJob_then_alreadyRunning r t t' _ st' jid h

/-- Witness for C1: after registering repository 1 and beginning its job,
a racing second `Begin` is rejected; the invariant holds on a concrete
run. -/
theorem scheduler_at_most_one_inflight_witness :
    atMostOneInflight (runOps 60 3600 [SchedOp.register 1, SchedOp.tick]).jobs ∧
    beginJob 1 Trigger.manual
        { now := 0, known := [1], queue := [⟨1, 0, Trigger.auto⟩],
          jobs := [⟨1, SyncJobState.running, Trigger.auto⟩], failures := [] } =
      .error .alreadyRunning :=
  ⟨(scheduler_at_most_one_inflight 60 3600 [SchedOp.register 1, SchedOp.tick]).1,
   (scheduler_at_most_one_inflight 60 3600 [SchedOp.register 1]).2
     1 Trigger.auto Trigger.manual 0
     { now := 0, known := [1], queue := [⟨1, 0, Trigger.auto⟩],
       jobs := [⟨1, SyncJobState.running, Trigger.auto⟩], failures := [] }
     rfl⟩

/-- C7: the backoff-computed due-time delta is non-decreasing in the
consecutive-failure count and capped at the maximum interval; a successful
`RecordOutcome` resets the repository's failure counter to 0, and the next
computed delta returns to the steady-state refresh interval (the
re-enqueued entry is due one steady-state interval from now). -/
theorem backoff_monotone_capped_reset (steadyInterval maxInterval m n : Nat)
    (hmn : m ≤ n) (hs : steadyInterval ≤ maxInterval) :
    backoffDelta steadyInterval maxInterval m ≤ backoffDelta steadyInterval maxInterval n ∧
    backoffDelta steadyInterval maxInterval n ≤ maxInterval ∧
    backoffDelta steadyInterval maxInterval 0 = steadyInterval ∧
    (∀ (st : SchedState) (jid : Nat) (j : SyncJob), st.jobs[jid]? = some j →
        lookupFailures j.repoId
            (recordOutcome steadyInterval maxInterval jid true st).failures = 0 ∧
        (recordOutcome steadyInterval maxInterval jid true st).queue.head? =
          some ⟨j.repoId, st.now + steadyInterval, Trigger.auto⟩) := by
  have hzero : backoffDelta steadyInterval maxInterval 0 = steadyInterval := by
    simp [backoffDelta, Nat.min_eq_left hs]
  refine ⟨?_, ?_, hzero, ?_⟩
  · exact min_le_min
      (Nat.mul_le_mul (le_refl _) (Nat.pow_le_pow_right (by norm_num) hmn))
      (le_refl _)
  · exact min_le_right _ _
  · intro st jid j hj
    constructor
    · simp [recordOutcome, hj, setFailures, lookupFailures]
    · simp [recordOutcome, hj, setFailures, enqueueEntry, hzero]

/-- Witness for C7 at concrete intervals and a concrete one-job state. -/
theorem backoff_monotone_capped_reset_witness :
    backoffDelta 60 3600 1 ≤ backoffDelta 60 3600 3 ∧
    backoffDelta 60 3600 3 ≤ 3600 ∧
    backoffDelta 60 3600 0 = 60 ∧
    lookupFailures 7
        (recordOutcome 60 3600 0 true
          { now := 5, known := [7], queue := [],
            jobs := [⟨7, SyncJobState.running, Trigger.auto⟩],
            failures := [(7, 4)] }).failures = 0 ∧
    (recordOutcome 60 3600 0 true
        { now := 5, known := [7], queue := [],
          jobs := [⟨7, SyncJobState.running, Trigger.auto⟩],
          failures := [(7, 4)] }).queue.head? = some ⟨7, 65, Trigger.auto⟩ := by
  have h := backoff_monotone_capped_reset 60 3600 1 3 (by decide) (by decide)
  have h4 := h.2.2.2
    { now := 5, known := [7], queue := [],
      jobs := [⟨7, SyncJobState.running, Trigger.auto⟩], failures := [(7, 4)] }
    0 ⟨7, SyncJobState.running, Trigger.auto⟩ rfl
  exact ⟨h.1, h.2.1, h.2.2.1, h4.1, h4.2⟩

/-! ## Part III: Purge Worker counters.

The counters `purgeSuccess` and `purgeFailed` are declared in the sampled
source (`src_repoupdater_purge_success`, incremented each time we remove a
repository clone, and `src_repoupdater_purge_failed`, incremented each
time we try and fail to remove one).  The sweep loop that drives them is
not in the sampled source and is modelled from the spec (§4.4). -/

/-- The two separate monotonic purge counters from the sampled source. -/
structure PurgeCounters where
  purgeSuccess : Nat
  purgeFailed : Nat
deriving DecidableEq

/-- One removal attempt: on success increment only `purgeSuccess`, on
failure increment only `purgeFailed`; the attempt never aborts anything. -/
def purgeStep (removeOk : Nat → Bool) (c : PurgeCounters) (repo : Nat) : PurgeCounters :=
  if removeOk repo then { c with purgeSuccess := c.purgeSuccess + 1 }
  else { c with purgeFailed := c.purgeFailed + 1 }

/-- Modelled from the spec: the Purge Worker sweep — each orphan's removal
attempt is independent; one failure must not abort the sweep. -/
def purgeSweep (removeOk : Nat → Bool) (orphans : List Nat) (c : PurgeCounters) :
    PurgeCounters :=
  orphans.foldl (purgeStep removeOk) c

/-- Helper: the sweep counts every successful removal in `purgeSuccess`
and every failed attempt in `purgeFailed`, processing the whole orphan
list. -/
theorem purgeSweep_counts (removeOk : Nat → Bool) :
    ∀ (orphans : List Nat) (c : PurgeCounters),
      (purgeSweep removeOk orphans c).purgeSuccess =
          c.purgeSuccess + orphans.countP (fun r => removeOk r) ∧
      (purgeSweep removeOk orphans c).purgeFailed =
          c.purgeFailed + orphans.countP (fun r => !removeOk r)
  | [], c => by simp [purgeSweep]
  | r :: rest, c => by
      have ih := purgeSweep_counts removeOk rest (purgeStep removeOk c r)
      have hsweep : purgeSweep removeOk (r :: rest) c =
          purgeSweep removeOk rest (purgeStep removeOk c r) := rfl
      rw [hsweep]
      cases h : removeOk r with
      | true =>
          rw [ih.1, ih.2]
          simp [purgeStep, h, List.countP_cons]
          omega
      | false =>
          rw [ih.1, ih.2]
          simp [purgeStep, h, List.countP_cons]
          omega

/-- C9: purge outcomes are counted in two separate monotonic counters —
the sweep increments `purgeSuccess` exactly once per successful removal
and `purgeFailed` exactly once per failed attempt; a failed removal
increments only the failure counter and never aborts the sweep (every
orphan in the list is attempted, as witnessed by the exact counting
identities). -/
theorem purge_counters_separate (removeOk : Nat → Bool) (orphans : List Nat)
    (c : PurgeCounters) :
    (purgeSweep removeOk orphans c).purgeSuccess =
        c.purgeSuccess + orphans.countP (fun r => removeOk r) ∧
    (purgeSweep removeOk orphans c).purgeFailed =
        c.purgeFailed + orphans.countP (fun r => !removeOk r) ∧
    c.purgeSuccess ≤ (purgeSweep removeOk orphans c).purgeSuccess ∧
    c.purgeFailed ≤ (purgeSweep removeOk orphans c).purgeFailed ∧
    (∀ r c', removeOk r = false →
        purgeStep removeOk c' r = { c' with purgeFailed := c'.purgeFailed + 1 }) ∧
    (∀ r c', removeOk r = true →
        purgeStep removeOk c' r = { c' with purgeSuccess := c'.purgeSuccess + 1 }) := by
  have h := purgeSweep_counts removeOk orphans c
  refine ⟨h.1, h.2, ?_, ?_, ?_, ?_⟩
  · rw [h.1]; exact Nat.le_add_right _ _
  · rw [h.2]; exact Nat.le_add_right _ _
  · intro r c' hr; simp [purgeStep, hr]
  · intro r c' hr; simp [purgeStep, hr]

/-- Witness for C9 at a concrete sweep (repos 1 and 3 removable, 2 not). -/
theorem purge_counters_separate_witness :
    (purgeSweep (fun r => r % 2 == 1) [1, 2, 3] ⟨10, 20⟩).purgeSuccess = 10 + 2 ∧
    purgeStep (fun r => r % 2 == 1) ⟨0, 0⟩ 2 = ⟨0, 1⟩ :=
  ⟨(purge_counters_separate (fun r => r % 2 == 1) [1, 2, 3] ⟨10, 20⟩).1,
   (purge_counters_separate (fun r => r % 2 == 1) [] ⟨0, 0⟩).2.2.2.2.1 2 ⟨0, 0⟩ rfl⟩

/-! ## Part IV: repo-updater metrics gauges (`MustRegisterMetrics`).

From the sampled `repos` source file: `MustRegisterMetrics` registers
eight gauge functions, each evaluating a database query through
`scanCount` (scan of a count into an int64) or `scanNullFloat` (scan into
a nullable float); every gauge returns 0 on query error, and the nullable
gauges additionally return 0 on a NULL value. -/

/-- Outcome of scanning a gauge query's single row: query error, SQL NULL,
or a value. -/
inductive ScanOutcome
  | err
  | null
  | val (x : Int)
deriving DecidableEq

/-- Embeds `scanCount`: scanning a row into an int64 — a query error is an error,
and scanning SQL NULL into an int64 is also a scan error. -/
def scanCount : ScanOutcome → Except Unit Int
  | .err => .error ()
  | .null => .error ()
  | .val x => .ok x

/-- Embeds `scanNullFloat`: scanning a row into a nullable float — NULL scans
successfully as an invalid (absent) value. -/
def scanNullFloat : ScanOutcome → Except Unit (Option Int)
  | .err => .error ()
  | .null => .ok none
  | .val x => .ok (some x)

/-- The gauge body shared by the six count-based gauges: log and return 0
on error, the count otherwise. -/
def countGauge (s : ScanOutcome) : Int :=
  match scanCount s with
  | .error _ => 0
  | .ok n => n

/-- The gauge body shared by the two nullable-float gauges
(`errored_sync_jobs_percentage` and `max_sync_backoff`): return 0 on
error, 0 when the value is not valid (NULL), the value otherwise. -/
def nullFloatGauge (s : ScanOutcome) : Int :=
  match scanNullFloat s with
  | .error _ => 0
  | .ok none => 0
  | .ok (some x) => x

/-- Embeds `MustRegisterMetrics`: the gauge functions it registers, by metric
name, in registration order.  The `sourcegraphDotCom` flag only restricts
the backoff gauge's query (excluding user-added external services); it
does not change any gauge's outcome handling. -/
def MustRegisterMetrics (sourcegraphDotCom : Bool) : List (String × (ScanOutcome → Int)) :=
  [("src_repoupdater_external_services_total", countGauge),
   ("src_repoupdater_user_external_services_total", countGauge),
   ("src_repoupdater_user_repos_total", countGauge),
   ("src_repoupdater_user_with_external_services_total", countGauge),
   ("src_repoupdater_queued_sync_jobs_total", countGauge),
   ("src_repoupdater_completed_sync_jobs_total", countGauge),
   ("src_repoupdater_errored_sync_jobs_percentage", nullFloatGauge),
   ("src_repoupdater_max_sync_backoff", nullFloatGauge)]

/-- C10: every gauge function registered by `MustRegisterMetrics` is total
over failure of its underlying query: when the query errors or yields a
NULL value the gauge evaluates to 0 instead of propagating an error, and
on a value it evaluates to that value. -/
theorem metrics_gauges_total_on_failure (sourcegraphDotCom : Bool)
    (g : ScanOutcome → Int)
    (hg : g ∈ (MustRegisterMetrics sourcegraphDotCom).map Prod.snd) :
    g .err = 0 ∧ g .null = 0 ∧ ∀ x, g (.val x) = x := by
  simp only [MustRegisterMetrics, List.map, List.mem_cons, List.not_mem_nil,
    or_false] at hg
  rcases hg with h | h | h | h | h | h | h | h <;> subst h <;>
    exact ⟨rfl, rfl, fun x => rfl⟩

/-- Witness for C10 on the first registered gauge. -/
theorem metrics_gauges_total_on_failure_witness :
    countGauge .err = 0 ∧ countGauge .null = 0 ∧ ∀ x, countGauge (.val x) = x :=
  metrics_gauges_total_on_failure true countGauge
    (by simp [MustRegisterMetrics])
